import Mathlib

/-!
Shallow embedding of the raw strided array view core of this repository
(`src/ndarray/src/impl_raw_views.rs`): raw view construction
(`from_shape_ptr`), promotion to a checked view (`deref_into_view`,
`deref_into_view_mut`), axis split (`split_at`), element-type
reinterpretation (`cast`), complex-component decomposition
(`split_complex`), and the mutable-variant delegation.

Modelling conventions:
* A base pointer is modelled as a byte address of type `Int`; the null
  pointer is address `0`.  Pointer arithmetic `p.offset(n)` on a pointer to
  elements of size `s` bytes becomes `p + n * s`.
* `Dimension` values (`D`) are modelled as `List Nat` (axis extents, `usize`
  each) together with `List Nat`-indexed strides.  Strides are stored as
  `usize` in the source but are interpreted as `isize` everywhere they are
  used; following the spec invariant ("every stride is non-negative", §3)
  they are modelled as `Int` values so that the debug-only non-negativity
  validation of `from_shape_ptr` is meaningful.
* Element types are represented by their sizes (and alignment where it
  matters) passed as explicit `Nat` arguments, since the descriptor
  operations depend on the element type only through `size_of` /
  `align_of`.
* A Rust `panic!` / failed `assert!` is modelled as `Except.error` with the
  source's panic message; normal return is `Except.ok`.
* Machine-integer overflow is immaterial to the properties proved here
  (the spec's §3.3 invariants bound all quantities well below `isize::MAX`),
  so arithmetic is modelled over unbounded `Int` / `Nat`.
-/

deriving instance DecidableEq for Except

namespace Ndarray

/-- Modelled from the spec: `Complex<T>` of the external `num_complex` crate
(not under `src/`) is a `repr(C)` pair `{ re : T, im : T }`; its size is
exactly twice `size_of::<T>()` and its alignment equals `align_of::<T>()`
(the defensive assertions at the top of `split_complex` restate exactly
this and can never fail). -/
structure Complex (α : Type) where
  re : α
  im : α
deriving DecidableEq, Repr

/-- A raw (non-owning, non-dereferenceable) array view `RawArrayView<A, D>`:
base pointer, per-axis extents, per-axis strides (in elements of `A`). -/
structure RawArrayView where
  ptr : Int
  dim : List Nat
  strides : List Int
deriving DecidableEq, Repr

/-- A raw mutable array view `RawArrayViewMut<A, D>`: same descriptor as
`RawArrayView`, distinguished only at the type level. -/
structure RawArrayViewMut where
  ptr : Int
  dim : List Nat
  strides : List Int
deriving DecidableEq, Repr

/-- A checked, dereferenceable read-only view `ArrayView<'a, A, D>`
(external collaborator; carries the same descriptor fields). -/
structure ArrayView where
  ptr : Int
  dim : List Nat
  strides : List Int
deriving DecidableEq, Repr

/-- A checked, dereferenceable mutable view `ArrayViewMut<'a, A, D>`
(external collaborator; carries the same descriptor fields). -/
structure ArrayViewMut where
  ptr : Int
  dim : List Nat
  strides : List Int
deriving DecidableEq, Repr

/-- Boolean success test for the `Except`-modelled fallible operations. -/
def exOk {ε α : Type} : Except ε α → Bool
  | Except.ok _ => true
  | Except.error _ => false

/-- The platform signed-offset limit `isize::MAX` (64-bit target). -/
def isizeMaxNat : Nat := 2 ^ 63 - 1

/-- Modelled from the spec: `dimension::stride_offset` (not under `src/`) —
the element-unit offset of `n` steps along an axis of stride `stride`
("the original pointer advanced by `index * strides[axis]` elements",
§4.3). -/
def stride_offset (n : Nat) (stride : Int) : Int := (n : Int) * stride

/-- Modelled from the spec: `dimension::strides_non_negative` (not under
`src/`) — debug-only validation that every custom stride is non-negative
(§4.1). -/
def strides_non_negative (strides : List Int) : Bool :=
  strides.all (fun s => 0 ≤ s)

/-- The maximum absolute offset, in element units, reachable from the base
pointer by any in-bounds index combination: along axis `ax` the farthest
index is `dim[ax] - 1` (or the axis contributes nothing when its extent is
zero). -/
def max_abs_offset (dim : List Nat) (strides : List Int) : Nat :=
  ((List.range dim.length).map
    (fun ax => (dim.getD ax 0 - 1) * (strides.getD ax 0).natAbs)).sum

/-- Modelled from the spec: `dimension::max_abs_offset_check_overflow` (not
under `src/`) — debug-only validation (§3.3) that the maximum reachable
offset exceeds the signed-offset limit neither in element units nor in
byte units (`size` is `size_of::<A>()`). -/
def max_abs_offset_check_overflow (size : Nat) (dim : List Nat)
    (strides : List Int) : Bool :=
  max_abs_offset dim strides ≤ isizeMaxNat &&
    max_abs_offset dim strides * size ≤ isizeMaxNat

/-- Modelled from the spec: `dimension::size_of_shape_checked` (not under
`src/`) — debug-only validation that the total element count of a
default-strided shape does not overflow the offset limit (§4.1). -/
def size_of_shape_checked (dim : List Nat) : Bool :=
  dim.prod ≤ isizeMaxNat

/-- Modelled from the spec: the standard row-major contiguous strides
computed from a dimension — the stride of an axis is the product of all
later axis extents (§4.1, "compute the standard row-major ... contiguous
strides from the dimension"). -/
def contiguousStrides : List Nat → List Int
  | [] => []
  | _ :: rest => ((rest.prod : Nat) : Int) :: contiguousStrides rest

/-- The strides specification carried by a `StrideShape`: either default
(contiguous) or caller-supplied custom strides. -/
inductive Strides where
  | Default : Strides
  | Custom : List Int → Strides
deriving DecidableEq, Repr

/-- Shape information `StrideShape<D>`: a dimension plus a strides
specification. -/
structure StrideShape where
  dim : List Nat
  strides : Strides
deriving DecidableEq, Repr

/-- Modelled from the spec: `Strides::strides_for_dim` (not under `src/`) —
default strides are the standard contiguous strides computed from the
dimension; custom strides are taken as given. -/
def Strides.strides_for_dim : Strides → List Nat → List Int
  | Strides.Default, dim => contiguousStrides dim
  | Strides.Custom s, _ => s

/-- Modelled from the spec: `is_aligned` (not under `src/`) — the pointer
address is a multiple of the element type's alignment. -/
def is_aligned (align : Nat) (ptr : Int) : Bool :=
  ptr % (align : Int) = 0

/-- `RawArrayView::from_shape_ptr` (impl_raw_views.rs lines 69-86).
`debug` models `cfg!(debug_assertions)`; `sizeA` is `size_of::<A>()`.
The debug-only block asserts a non-null pointer, then for custom strides
validates non-negativity and the maximum-offset overflow bound, and for
default strides validates the total-element-count bound; afterwards the
strides are materialised by `strides_for_dim` and the view is built. -/
def RawArrayView.from_shape_ptr (debug : Bool) (sizeA : Nat)
    (shape : StrideShape) (ptr : Int) : Except String RawArrayView :=
  let dim := shape.dim
  let checks : Except String Unit :=
    if debug then
      if ptr = 0 then Except.error "The pointer must be non-null."
      else
        match shape.strides with
        | Strides.Custom strides =>
          if strides_non_negative strides then
            if max_abs_offset_check_overflow sizeA dim strides then
              Except.ok ()
            else Except.error "max offset overflow"
          else Except.error "strides must be non-negative"
        | Strides.Default =>
          if size_of_shape_checked dim then Except.ok ()
          else Except.error "size of shape overflow"
    else Except.ok ()
  match checks with
  | Except.error e => Except.error e
  | Except.ok _ =>
    Except.ok ⟨ptr, dim, shape.strides.strides_for_dim dim⟩

/-- `RawArrayView::deref_into_view` (impl_raw_views.rs lines 97-103):
a debug-only alignment assertion, then the same descriptor handed back as
a checked view (`align` is `align_of::<A>()`). -/
def RawArrayView.deref_into_view (v : RawArrayView) (debug : Bool)
    (align : Nat) : Except String ArrayView :=
  if debug && !(is_aligned align v.ptr) then
    Except.error "The pointer must be aligned."
  else
    Except.ok ⟨v.ptr, v.dim, v.strides⟩

/-- `RawArrayView::split_at` (impl_raw_views.rs lines 109-130).  `sizeA` is
`size_of::<A>()` (pointer `.offset` advances in whole elements).  The
source first evaluates `self.len_of(axis)`, which panics when `axis` is
out of range, then asserts `index <= len_of(axis)`. -/
def RawArrayView.split_at (v : RawArrayView) (sizeA axis index : Nat) :
    Except String (RawArrayView × RawArrayView) :=
  if axis < v.dim.length then
    if index ≤ v.dim.getD axis 0 then
      let left_ptr := v.ptr
      let right_ptr :=
        if index = v.dim.getD axis 0 then v.ptr
        else v.ptr + stride_offset index (v.strides.getD axis 0) * (sizeA : Int)
      let dim_left := v.dim.set axis index
      let left : RawArrayView := ⟨left_ptr, dim_left, v.strides⟩
      let right_len := v.dim.getD axis 0 - index
      let dim_right := v.dim.set axis right_len
      let right : RawArrayView := ⟨right_ptr, dim_right, v.strides⟩
      Except.ok (left, right)
    else Except.error "assertion failed: index <= self.len_of(axis)"
  else Except.error "index out of bounds: axis"

/-- `RawArrayView::cast::<B>` (impl_raw_views.rs lines 142-150): an
unconditional (every build mode) element-size equality assertion, then the
same descriptor with the pointer bit pattern unchanged. -/
def RawArrayView.cast (v : RawArrayView) (sizeA sizeB : Nat) :
    Except String RawArrayView :=
  if sizeB = sizeA then
    Except.ok ⟨v.ptr, v.dim, v.strides⟩
  else
    Except.error "size mismatch in raw view cast"

/-- `ArrayBase::is_empty` (not under `src/`); modelled from the spec: a
view is empty iff the product of its axis extents is zero. -/
def RawArrayView.is_empty (v : RawArrayView) : Bool :=
  v.dim.prod = 0

/-- `RawArrayView::<Complex<T>>::split_complex` (impl_raw_views.rs lines
157-217).  `sizeT` is `size_of::<T>()`; `size_of::<Complex<T>>()` is
`2 * sizeT` and the alignments agree, so the two defensive assertions at
the top of the source always pass and need no error path.  Strides are
doubled per axis when `T` is not zero-sized and the axis extent exceeds 1;
the imaginary pointer is `ptr_re.add(1)` (one `T`, i.e. `sizeT` bytes)
unless the view is empty, in which case the real pointer is reused. -/
def RawArrayView.split_complex (v : RawArrayView) (sizeT : Nat) :
    Complex RawArrayView :=
  let dim := v.dim
  let strides :=
    if sizeT ≠ 0 then
      (List.range v.strides.length).map (fun ax =>
        if dim.getD ax 0 > 1 then v.strides.getD ax 0 * 2
        else v.strides.getD ax 0)
    else v.strides
  let ptr_re : Int := v.ptr
  let ptr_im : Int := if v.is_empty then ptr_re else ptr_re + (sizeT : Int)
  { re := ⟨ptr_re, dim, strides⟩, im := ⟨ptr_im, dim, strides⟩ }

/-- `RawArrayViewMut::from_shape_ptr` (impl_raw_views.rs lines 277-294):
textually the same construction and debug-only validation as the
read-only variant. -/
def RawArrayViewMut.from_shape_ptr (debug : Bool) (sizeA : Nat)
    (shape : StrideShape) (ptr : Int) : Except String RawArrayViewMut :=
  let dim := shape.dim
  let checks : Except String Unit :=
    if debug then
      if ptr = 0 then Except.error "The pointer must be non-null."
      else
        match shape.strides with
        | Strides.Custom strides =>
          if strides_non_negative strides then
            if max_abs_offset_check_overflow sizeA dim strides then
              Except.ok ()
            else Except.error "max offset overflow"
          else Except.error "strides must be non-negative"
        | Strides.Default =>
          if size_of_shape_checked dim then Except.ok ()
          else Except.error "size of shape overflow"
    else Except.ok ()
  match checks with
  | Except.error e => Except.error e
  | Except.ok _ =>
    Except.ok ⟨ptr, dim, shape.strides.strides_for_dim dim⟩

/-- `RawArrayViewMut::into_raw_view` (impl_raw_views.rs lines 297-299):
rewraps the same descriptor as a read-only raw view. -/
def RawArrayViewMut.into_raw_view (v : RawArrayViewMut) : RawArrayView :=
  ⟨v.ptr, v.dim, v.strides⟩

/-- `RawArrayViewMut::deref_into_view_mut` (impl_raw_views.rs lines
329-335): a debug-only alignment assertion, then the same descriptor
handed back as a checked mutable view. -/
def RawArrayViewMut.deref_into_view_mut (v : RawArrayViewMut)
    (debug : Bool) (align : Nat) : Except String ArrayViewMut :=
  if debug && !(is_aligned align v.ptr) then
    Except.error "The pointer must be aligned."
  else
    Except.ok ⟨v.ptr, v.dim, v.strides⟩

/-- `RawArrayViewMut::split_at` (impl_raw_views.rs lines 341-349):
delegates to the read-only `split_at` via `into_raw_view` and rewraps both
halves. -/
def RawArrayViewMut.split_at (v : RawArrayViewMut)
    (sizeA axis index : Nat) :
    Except String (RawArrayViewMut × RawArrayViewMut) :=
  match v.into_raw_view.split_at sizeA axis index with
  | Except.error e => Except.error e
  | Except.ok (left, right) =>
    Except.ok (⟨left.ptr, left.dim, left.strides⟩,
               ⟨right.ptr, right.dim, right.strides⟩)

/-- `RawArrayViewMut::cast::<B>` (impl_raw_views.rs lines 361-369): the
same unconditional size assertion and descriptor rewrap as the read-only
variant. -/
def RawArrayViewMut.cast (v : RawArrayViewMut) (sizeA sizeB : Nat) :
    Except String RawArrayViewMut :=
  if sizeB = sizeA then
    Except.ok ⟨v.ptr, v.dim, v.strides⟩
  else
    Except.error "size mismatch in raw view cast"

/-- `RawArrayViewMut::<Complex<T>>::split_complex` (impl_raw_views.rs
lines 378-386): delegates to the read-only `split_complex` via
`into_raw_view` and rewraps both component views. -/
def RawArrayViewMut.split_complex (v : RawArrayViewMut) (sizeT : Nat) :
    Complex RawArrayViewMut :=
  let c := v.into_raw_view.split_complex sizeT
  { re := ⟨c.re.ptr, c.re.dim, c.re.strides⟩,
    im := ⟨c.im.ptr, c.im.dim, c.im.strides⟩ }

/-- Descriptor-level coincidence of a mutable raw view with a read-only
raw view (same pointer, dimension, strides). -/
def mutOfRaw (r : RawArrayView) : RawArrayViewMut :=
  ⟨r.ptr, r.dim, r.strides⟩

/-- Sanity check, the spec's concrete scenario 1: a 2×3 row-major view of
4-byte elements with strides `[3, 1]`, split along axis 0 at index 1,
yields a 1×3 left view with the pointer unchanged and a 1×3 right view
with the pointer advanced by 3 elements (12 bytes). -/
theorem scenario1_split_at :
    (⟨100, [2, 3], [3, 1]⟩ : RawArrayView).split_at 4 0 1 =
      Except.ok (⟨100, [1, 3], [3, 1]⟩, ⟨112, [1, 3], [3, 1]⟩) := by
  decide

/-- Sanity check, the spec's concrete scenario 2: a view of 4 complex
pairs of 4-byte components decomposes into two views of stride `[2]`,
with the imaginary pointer one component (4 bytes) past the real one. -/
theorem scenario2_split_complex :
    (⟨100, [4], [1]⟩ : RawArrayView).split_complex 4 =
      { re := ⟨100, [4], [2]⟩, im := ⟨104, [4], [2]⟩ } := by
  decide

/-- Sanity check, the spec's concrete scenario 3: an empty `[0, 3]` view
of complex pairs decomposes with `re` and `im` sharing the base pointer
(the stride of the extent-3 axis is still doubled). -/
theorem scenario3_split_complex_empty :
    (⟨100, [0, 3], [3, 1]⟩ : RawArrayView).split_complex 4 =
      { re := ⟨100, [0, 3], [3, 2]⟩, im := ⟨100, [0, 3], [3, 2]⟩ } := by
  decide

/-- C1: for every raw view `V`, in-range axis `a` and split index
`0 ≤ index ≤ dimension[a]`, `split_at(a, index)` returns a left view whose
base pointer is `V`'s base pointer unchanged, and a right view whose base
pointer is `V.base_pointer + index * strides[a]` elements (that is,
`index * strides[a] * size_of(A)` bytes) when `index < dimension[a]`, and
is `V.base_pointer` unchanged when `index = dimension[a]`. -/
theorem C1_split_at_pointer_law (v : RawArrayView) (sizeA axis index : Nat)
    (h1 : axis < v.dim.length) (h2 : index ≤ v.dim.getD axis 0) :
    (v.split_at sizeA axis index).map (fun p => (p.1.ptr, p.2.ptr)) =
      Except.ok (v.ptr,
        if index = v.dim.getD axis 0 then v.ptr
        else v.ptr + (index : Int) * v.strides.getD axis 0 * (sizeA : Int)) := by
  unfold RawArrayView.split_at
  rw [if_pos h1, if_pos h2]
  rfl

/-- Witness for C1 at the spec's concrete scenario 1: a 2×3 row-major view
of 4-byte elements with strides `[3, 1]`, split along axis 0 at index 1;
the right pointer advances by 3 elements (12 bytes). -/
theorem C1_split_at_pointer_law_witness :
    ((⟨100, [2, 3], [3, 1]⟩ : RawArrayView).split_at 4 0 1).map
        (fun p => (p.1.ptr, p.2.ptr)) =
      Except.ok ((100 : Int),
        if 1 = ([2, 3] : List Nat).getD 0 0 then (100 : Int)
        else (100 : Int) + ((1 : Nat) : Int) *
          ([3, 1] : List Int).getD 0 0 * ((4 : Nat) : Int)) :=
  C1_split_at_pointer_law ⟨100, [2, 3], [3, 1]⟩ 4 0 1 (by decide) (by decide)

/-- C5: for every raw view `V`, in-range axis `a` and split index
`0 ≤ index ≤ dimension[a]`, `split_at(a, index)` gives a left view of
extent `index` along `a` and a right view of extent `dimension[a] - index`
along `a`, both with every other axis extent equal to `V`'s
(`List.set` leaves all other entries unchanged) and with `V`'s strides
unchanged. -/
theorem C5_split_at_shape_law (v : RawArrayView) (sizeA axis index : Nat)
    (h1 : axis < v.dim.length) (h2 : index ≤ v.dim.getD axis 0) :
    (v.split_at sizeA axis index).map
        (fun p => (p.1.dim, p.1.strides, p.2.dim, p.2.strides)) =
      Except.ok (v.dim.set axis index, v.strides,
        v.dim.set axis (v.dim.getD axis 0 - index), v.strides) ∧
    (v.dim.set axis index).getD axis 0 = index ∧
    (v.dim.set axis (v.dim.getD axis 0 - index)).getD axis 0 =
      v.dim.getD axis 0 - index := by
  refine ⟨?_, ?_, ?_⟩
  · unfold RawArrayView.split_at
    rw [if_pos h1, if_pos h2]
    rfl
  · simp [List.getD_eq_getElem?_getD, List.getElem?_set_self, h1]
  · simp [List.getD_eq_getElem?_getD, List.getElem?_set_self, h1]

/-- Witness for C5 at the spec's concrete scenario 1. -/
theorem C5_split_at_shape_law_witness :
    ((⟨100, [2, 3], [3, 1]⟩ : RawArrayView).split_at 4 0 1).map
        (fun p => (p.1.dim, p.1.strides, p.2.dim, p.2.strides)) =
      Except.ok (([2, 3] : List Nat).set 0 1, ([3, 1] : List Int),
        ([2, 3] : List Nat).set 0 (([2, 3] : List Nat).getD 0 0 - 1),
        ([3, 1] : List Int)) ∧
    (([2, 3] : List Nat).set 0 1).getD 0 0 = 1 ∧
    (([2, 3] : List Nat).set 0
        (([2, 3] : List Nat).getD 0 0 - 1)).getD 0 0 =
      ([2, 3] : List Nat).getD 0 0 - 1 :=
  C5_split_at_shape_law ⟨100, [2, 3], [3, 1]⟩ 4 0 1 (by decide) (by decide)

/-- C6: `split_at` fails (an always-on `assert!`, present in every build
mode) exactly when the axis does not name an existing axis or the split
index exceeds the extent along that axis; on all in-range inputs it
returns normally. -/
theorem C6_split_at_panic_iff (v : RawArrayView) (sizeA axis index : Nat) :
    exOk (v.split_at sizeA axis index) = true ↔
      (axis < v.dim.length ∧ index ≤ v.dim.getD axis 0) := by
  unfold RawArrayView.split_at
  by_cases h1 : axis < v.dim.length
  · by_cases h2 : index ≤ v.dim.getD axis 0
    · rw [if_pos h1, if_pos h2]
      exact ⟨fun _ => ⟨h1, h2⟩, fun _ => rfl⟩
    · rw [if_pos h1, if_neg h2]
      exact ⟨fun hh => absurd hh Bool.false_ne_true,
             fun hh => absurd hh.2 h2⟩
  · rw [if_neg h1]
    exact ⟨fun hh => absurd hh Bool.false_ne_true,
           fun hh => absurd hh.1 h1⟩

/-- C4: `cast::<B>` fails, in every build mode and without touching
memory, exactly when `size_of(B) ≠ size_of(A)`; when the sizes agree it
returns a view with the same pointer bit pattern, the same dimension and
the same strides, with no further validation. -/
theorem C4_cast_size_law (v : RawArrayView) (sizeA sizeB : Nat) :
    (exOk (v.cast sizeA sizeB) = true ↔ sizeB = sizeA) ∧
    (sizeB = sizeA →
      v.cast sizeA sizeB = Except.ok ⟨v.ptr, v.dim, v.strides⟩) := by
  unfold RawArrayView.cast
  by_cases h : sizeB = sizeA
  · rw [if_pos h]
    simp [exOk, h]
  · rw [if_neg h]
    simp [exOk, h]

/-- Witness for C4 at the spec's concrete scenario 4: casting 4-byte
elements to a 4-byte type succeeds and preserves the descriptor (and the
success test agrees with the size comparison). -/
theorem C4_cast_size_law_witness :
    (exOk ((⟨100, [2, 3], [3, 1]⟩ : RawArrayView).cast 4 4) = true ↔
      (4 : Nat) = 4) ∧
    ((4 : Nat) = 4 →
      (⟨100, [2, 3], [3, 1]⟩ : RawArrayView).cast 4 4 =
        Except.ok ⟨100, [2, 3], [3, 1]⟩) :=
  C4_cast_size_law ⟨100, [2, 3], [3, 1]⟩ 4 4

/-- C10: for equal element sizes, the round trip
`v.cast::<B>().cast::<A>()` returns a view whose pointer, dimension and
strides all equal the original view's. -/
theorem C10_cast_roundtrip (v : RawArrayView) (sizeA sizeB : Nat)
    (h : sizeB = sizeA) :
    (v.cast sizeA sizeB).bind (fun w => w.cast sizeB sizeA) =
      Except.ok v := by
  subst h
  unfold RawArrayView.cast
  simp [Except.bind]

/-- Witness for C10: the round trip at a concrete 4-byte view is the
identity on the descriptor. -/
theorem C10_cast_roundtrip_witness :
    ((⟨100, [2, 3], [3, 1]⟩ : RawArrayView).cast 4 4).bind
        (fun w => w.cast 4 4) =
      Except.ok (⟨100, [2, 3], [3, 1]⟩ : RawArrayView) :=
  C10_cast_roundtrip ⟨100, [2, 3], [3, 1]⟩ 4 4 rfl

/-- C2: `split_complex` returns two views that both carry the original
dimension, share one strides list, of the original length, in which the
stride of an axis is doubled exactly when the component type has nonzero
size and the axis extent exceeds 1, and is the original stride otherwise
(in particular all strides are unmodified for a zero-sized component
type). -/
theorem C2_split_complex_stride_law (v : RawArrayView) (sizeT ax : Nat)
    (h : ax < v.strides.length) :
    (v.split_complex sizeT).re.dim = v.dim ∧
    (v.split_complex sizeT).im.dim = v.dim ∧
    (v.split_complex sizeT).im.strides =
      (v.split_complex sizeT).re.strides ∧
    (v.split_complex sizeT).re.strides.length = v.strides.length ∧
    (v.split_complex sizeT).re.strides.getD ax 0 =
      (if sizeT ≠ 0 ∧ 1 < v.dim.getD ax 0 then v.strides.getD ax 0 * 2
       else v.strides.getD ax 0) := by
  refine ⟨rfl, rfl, rfl, ?_, ?_⟩
  · by_cases hs : sizeT = 0 <;> simp [RawArrayView.split_complex, hs]
  · by_cases hs : sizeT = 0
    · simp [RawArrayView.split_complex, hs]
    · simp [RawArrayView.split_complex, hs, List.getD_eq_getElem?_getD,
        List.getElem?_map, List.getElem?_range, h]

/-- Witness for C2 at the spec's concrete scenario 2: four complex pairs
of 4-byte components in a contiguous vector; the stride doubles to 2. -/
theorem C2_split_complex_stride_law_witness :
    ((⟨100, [4], [1]⟩ : RawArrayView).split_complex 4).re.dim = [4] ∧
    ((⟨100, [4], [1]⟩ : RawArrayView).split_complex 4).im.dim = [4] ∧
    ((⟨100, [4], [1]⟩ : RawArrayView).split_complex 4).im.strides =
      ((⟨100, [4], [1]⟩ : RawArrayView).split_complex 4).re.strides ∧
    ((⟨100, [4], [1]⟩ : RawArrayView).split_complex 4).re.strides.length =
      ([1] : List Int).length ∧
    ((⟨100, [4], [1]⟩ : RawArrayView).split_complex 4).re.strides.getD 0 0 =
      (if (4 : Nat) ≠ 0 ∧ 1 < ([4] : List Nat).getD 0 0
       then ([1] : List Int).getD 0 0 * 2
       else ([1] : List Int).getD 0 0) :=
  C2_split_complex_stride_law ⟨100, [4], [1]⟩ 4 0 (by decide)

/-- C3: `split_complex` returns a real-component view whose base pointer
is the original base pointer (reinterpreted, so the byte address is
unchanged); the imaginary-component pointer is the real pointer advanced
by one component (`size_of::<T>()` bytes) when the view is non-empty, and
is the real pointer unchanged when the product of the extents is zero. -/
theorem C3_split_complex_pointer_law (v : RawArrayView) (sizeT : Nat) :
    (v.split_complex sizeT).re.ptr = v.ptr ∧
    (v.split_complex sizeT).im.ptr =
      (if v.dim.prod = 0 then (v.split_complex sizeT).re.ptr
       else (v.split_complex sizeT).re.ptr + (sizeT : Int)) := by
  refine ⟨rfl, ?_⟩
  by_cases h : v.dim.prod = 0 <;>
    simp [RawArrayView.split_complex, RawArrayView.is_empty, h]

/-- Witness for C3 at the spec's concrete scenarios 2 and 3: a non-empty
vector of four pairs (imaginary pointer one component further) and an
empty `[0, 3]` view (pointers coincide). -/
theorem C3_split_complex_pointer_law_witness :
    (((⟨100, [4], [1]⟩ : RawArrayView).split_complex 4).re.ptr = 100 ∧
      ((⟨100, [4], [1]⟩ : RawArrayView).split_complex 4).im.ptr =
        (if ([4] : List Nat).prod = 0
         then ((⟨100, [4], [1]⟩ : RawArrayView).split_complex 4).re.ptr
         else ((⟨100, [4], [1]⟩ : RawArrayView).split_complex 4).re.ptr +
           ((4 : Nat) : Int))) ∧
    (((⟨100, [0, 3], [3, 1]⟩ : RawArrayView).split_complex 4).re.ptr =
        100 ∧
      ((⟨100, [0, 3], [3, 1]⟩ : RawArrayView).split_complex 4).im.ptr =
        (if ([0, 3] : List Nat).prod = 0
         then ((⟨100, [0, 3], [3, 1]⟩ :
            RawArrayView).split_complex 4).re.ptr
         else ((⟨100, [0, 3], [3, 1]⟩ :
            RawArrayView).split_complex 4).re.ptr + ((4 : Nat) : Int))) :=
  ⟨C3_split_complex_pointer_law ⟨100, [4], [1]⟩ 4,
   C3_split_complex_pointer_law ⟨100, [0, 3], [3, 1]⟩ 4⟩

/-- C7: `from_shape_ptr` stores the given dimension exactly, stores custom
strides exactly and computes contiguous strides for a default shape; its
validation (non-null pointer, non-negative custom strides and
maximum-offset bound, or element-count bound for default strides) runs
only in debug builds, and release builds (`debug = false`) perform no
checks at all. -/
theorem C7_from_shape_ptr_law (debug : Bool) (sizeA : Nat) (d : List Nat)
    (s : List Int) (p : Int) :
    (RawArrayView.from_shape_ptr false sizeA ⟨d, Strides.Custom s⟩ p =
      Except.ok ⟨p, d, s⟩) ∧
    (RawArrayView.from_shape_ptr false sizeA ⟨d, Strides.Default⟩ p =
      Except.ok ⟨p, d, contiguousStrides d⟩) ∧
    (exOk (RawArrayView.from_shape_ptr true sizeA ⟨d, Strides.Custom s⟩ p)
        = true ↔
      (p ≠ 0 ∧ strides_non_negative s = true ∧
        max_abs_offset_check_overflow sizeA d s = true)) ∧
    (exOk (RawArrayView.from_shape_ptr true sizeA ⟨d, Strides.Default⟩ p)
        = true ↔
      (p ≠ 0 ∧ size_of_shape_checked d = true)) ∧
    (exOk (RawArrayView.from_shape_ptr debug sizeA ⟨d, Strides.Custom s⟩ p)
        = true →
      RawArrayView.from_shape_ptr debug sizeA ⟨d, Strides.Custom s⟩ p =
        Except.ok ⟨p, d, s⟩) ∧
    (exOk (RawArrayView.from_shape_ptr debug sizeA ⟨d, Strides.Default⟩ p)
        = true →
      RawArrayView.from_shape_ptr debug sizeA ⟨d, Strides.Default⟩ p =
        Except.ok ⟨p, d, contiguousStrides d⟩) := by
  refine ⟨rfl, rfl, ?_, ?_, ?_, ?_⟩
  · by_cases hp : p = 0
    · simp [RawArrayView.from_shape_ptr, hp, exOk]
    · by_cases hn : strides_non_negative s
      · by_cases hm : max_abs_offset_check_overflow sizeA d s
        · simp [RawArrayView.from_shape_ptr, hp, hn, hm, exOk]
        · simp [RawArrayView.from_shape_ptr, hp, hn, hm, exOk]
      · simp [RawArrayView.from_shape_ptr, hp, hn, exOk]
  · by_cases hp : p = 0
    · simp [RawArrayView.from_shape_ptr, hp, exOk]
    · by_cases hz : size_of_shape_checked d
      · simp [RawArrayView.from_shape_ptr, hp, hz, exOk]
      · simp [RawArrayView.from_shape_ptr, hp, hz, exOk]
  · cases debug with
    | false => intro _; rfl
    | true =>
      by_cases hp : p = 0
      · simp [RawArrayView.from_shape_ptr, hp, exOk]
      · by_cases hn : strides_non_negative s
        · by_cases hm : max_abs_offset_check_overflow sizeA d s
          · intro _
            simp [RawArrayView.from_shape_ptr, hp, hn, hm,
              Strides.strides_for_dim]
          · simp [RawArrayView.from_shape_ptr, hp, hn, hm, exOk]
        · simp [RawArrayView.from_shape_ptr, hp, hn, exOk]
  · cases debug with
    | false => intro _; rfl
    | true =>
      by_cases hp : p = 0
      · simp [RawArrayView.from_shape_ptr, hp, exOk]
      · by_cases hz : size_of_shape_checked d
        · intro _
          simp [RawArrayView.from_shape_ptr, hp, hz,
            Strides.strides_for_dim]
        · simp [RawArrayView.from_shape_ptr, hp, hz, exOk]

/-- Witness for C7 at a concrete shape: pointer `100`, dimension `[2, 3]`,
custom strides `[3, 1]`, 4-byte elements, in a debug build. -/
theorem C7_from_shape_ptr_law_witness :
    (RawArrayView.from_shape_ptr false 4 ⟨[2, 3], Strides.Custom [3, 1]⟩
        100 = Except.ok ⟨100, [2, 3], [3, 1]⟩) ∧
    (RawArrayView.from_shape_ptr false 4 ⟨[2, 3], Strides.Default⟩ 100 =
      Except.ok ⟨100, [2, 3], contiguousStrides [2, 3]⟩) ∧
    (exOk (RawArrayView.from_shape_ptr true 4
          ⟨[2, 3], Strides.Custom [3, 1]⟩ 100) = true ↔
      ((100 : Int) ≠ 0 ∧ strides_non_negative [3, 1] = true ∧
        max_abs_offset_check_overflow 4 [2, 3] [3, 1] = true)) ∧
    (exOk (RawArrayView.from_shape_ptr true 4 ⟨[2, 3], Strides.Default⟩
          100) = true ↔
      ((100 : Int) ≠ 0 ∧ size_of_shape_checked [2, 3] = true)) ∧
    (exOk (RawArrayView.from_shape_ptr true 4
          ⟨[2, 3], Strides.Custom [3, 1]⟩ 100) = true →
      RawArrayView.from_shape_ptr true 4 ⟨[2, 3], Strides.Custom [3, 1]⟩
          100 = Except.ok ⟨100, [2, 3], [3, 1]⟩) ∧
    (exOk (RawArrayView.from_shape_ptr true 4 ⟨[2, 3], Strides.Default⟩
          100) = true →
      RawArrayView.from_shape_ptr true 4 ⟨[2, 3], Strides.Default⟩ 100 =
        Except.ok ⟨100, [2, 3], contiguousStrides [2, 3]⟩) :=
  C7_from_shape_ptr_law true 4 [2, 3] [3, 1] 100

/-- C8: promotion of a raw view to a checked view (`deref_into_view`, and
`deref_into_view_mut` for the mutable variant) hands back exactly the same
pointer, dimension and strides; its only check is a debug-only pointer
alignment assertion (release builds always succeed, and an aligned
pointer succeeds in every build). -/
theorem C8_deref_into_view_law (debug : Bool) (align : Nat)
    (v : RawArrayView) (m : RawArrayViewMut) :
    (v.deref_into_view false align =
      Except.ok ⟨v.ptr, v.dim, v.strides⟩) ∧
    (m.deref_into_view_mut false align =
      Except.ok ⟨m.ptr, m.dim, m.strides⟩) ∧
    (exOk (v.deref_into_view debug align) = true ↔
      (debug = true → is_aligned align v.ptr = true)) ∧
    (exOk (m.deref_into_view_mut debug align) = true ↔
      (debug = true → is_aligned align m.ptr = true)) ∧
    (is_aligned align v.ptr = true →
      v.deref_into_view debug align =
        Except.ok ⟨v.ptr, v.dim, v.strides⟩) ∧
    (is_aligned align m.ptr = true →
      m.deref_into_view_mut debug align =
        Except.ok ⟨m.ptr, m.dim, m.strides⟩) := by
  refine ⟨rfl, rfl, ?_, ?_, ?_, ?_⟩
  · cases debug with
    | false => simp [RawArrayView.deref_into_view, exOk]
    | true =>
      by_cases ha : is_aligned align v.ptr <;>
        simp [RawArrayView.deref_into_view, ha, exOk]
  · cases debug with
    | false => simp [RawArrayViewMut.deref_into_view_mut, exOk]
    | true =>
      by_cases ha : is_aligned align m.ptr <;>
        simp [RawArrayViewMut.deref_into_view_mut, ha, exOk]
  · intro ha
    simp [RawArrayView.deref_into_view, ha]
  · intro ha
    simp [RawArrayViewMut.deref_into_view_mut, ha]

/-- Witness for C8 at a concrete aligned view (address 100, alignment 4)
in a debug build. -/
theorem C8_deref_into_view_law_witness :
    ((⟨100, [2], [1]⟩ : RawArrayView).deref_into_view false 4 =
      Except.ok ⟨100, [2], [1]⟩) ∧
    ((⟨100, [2], [1]⟩ : RawArrayViewMut).deref_into_view_mut false 4 =
      Except.ok ⟨100, [2], [1]⟩) ∧
    (exOk ((⟨100, [2], [1]⟩ : RawArrayView).deref_into_view true 4) =
        true ↔
      (true = true → is_aligned 4 (100 : Int) = true)) ∧
    (exOk ((⟨100, [2], [1]⟩ :
          RawArrayViewMut).deref_into_view_mut true 4) = true ↔
      (true = true → is_aligned 4 (100 : Int) = true)) ∧
    (is_aligned 4 (100 : Int) = true →
      (⟨100, [2], [1]⟩ : RawArrayView).deref_into_view true 4 =
        Except.ok ⟨100, [2], [1]⟩) ∧
    (is_aligned 4 (100 : Int) = true →
      (⟨100, [2], [1]⟩ : RawArrayViewMut).deref_into_view_mut true 4 =
        Except.ok ⟨100, [2], [1]⟩) :=
  C8_deref_into_view_law true 4 ⟨100, [2], [1]⟩ ⟨100, [2], [1]⟩

/-- C9: the mutable `split_at`, `cast` and `split_complex` produce outputs
whose pointer, dimension and strides coincide with the read-only
operations applied to the raw view with the same descriptor
(`into_raw_view`), merely rewrapped as mutable views. -/
theorem C9_mut_refines_readonly (m : RawArrayViewMut)
    (sizeA sizeB sizeT axis index : Nat) :
    m.split_at sizeA axis index =
      (m.into_raw_view.split_at sizeA axis index).map
        (fun p => (mutOfRaw p.1, mutOfRaw p.2)) ∧
    m.cast sizeA sizeB = (m.into_raw_view.cast sizeA sizeB).map mutOfRaw ∧
    m.split_complex sizeT =
      { re := mutOfRaw (m.into_raw_view.split_complex sizeT).re,
        im := mutOfRaw (m.into_raw_view.split_complex sizeT).im } := by
  refine ⟨?_, ?_, rfl⟩
  · unfold RawArrayViewMut.split_at
    cases h : m.into_raw_view.split_at sizeA axis index with
    | error e => rfl
    | ok p => rfl
  · unfold RawArrayViewMut.cast RawArrayView.cast
      RawArrayViewMut.into_raw_view
    by_cases hb : sizeB = sizeA
    · rw [if_pos hb, if_pos hb]
      rfl
    · rw [if_neg hb, if_neg hb]
      rfl

/-- Witness for C9 at a concrete mutable view, exercising an in-range
split, a same-size cast and a complex decomposition. -/
theorem C9_mut_refines_readonly_witness :
    (⟨100, [2, 3], [3, 1]⟩ : RawArrayViewMut).split_at 4 0 1 =
      ((⟨100, [2, 3], [3, 1]⟩ :
          RawArrayViewMut).into_raw_view.split_at 4 0 1).map
        (fun p => (mutOfRaw p.1, mutOfRaw p.2)) ∧
    (⟨100, [2, 3], [3, 1]⟩ : RawArrayViewMut).cast 4 4 =
      ((⟨100, [2, 3], [3, 1]⟩ :
          RawArrayViewMut).into_raw_view.cast 4 4).map mutOfRaw ∧
    (⟨100, [2, 3], [3, 1]⟩ : RawArrayViewMut).split_complex 2 =
      { re := mutOfRaw ((⟨100, [2, 3], [3, 1]⟩ :
            RawArrayViewMut).into_raw_view.split_complex 2).re,
        im := mutOfRaw ((⟨100, [2, 3], [3, 1]⟩ :
            RawArrayViewMut).into_raw_view.split_complex 2).im } :=
  C9_mut_refines_readonly ⟨100, [2, 3], [3, 1]⟩ 4 4 2 0 1

/-- Witness for C6 at the spec's concrete scenario 1 (split in range) —
the success test agrees with the in-range condition. -/
theorem C6_split_at_panic_iff_witness :
    exOk ((⟨100, [2, 3], [3, 1]⟩ : RawArrayView).split_at 4 0 1) = true ↔
      (0 < ([2, 3] : List Nat).length ∧ 1 ≤ ([2, 3] : List Nat).getD 0 0) :=
  C6_split_at_panic_iff ⟨100, [2, 3], [3, 1]⟩ 4 0 1

end Ndarray
